import Mathlib

/-!
Shallow embedding of the "Number Discussion System" computation-tree core
(Express/TypeScript + Prisma), covering:

* the Result Computation Engine (`computeResult` in `src/models/operation-model.ts`),
* the Computation Tree Store (`Discussion`/`Operation` records, repository queries),
* the Chain Resolver (`OperationModel.getOperationChain`),
* the Tree Access API controllers (`DiscussionController.create/update`,
  `OperationController.create` in `src/controllers/discussions-controller.ts`).

Modelling conventions:

* JavaScript numbers are modelled as `Option ℚ`, where `none` models `NaN`
  (produced by `parseFloat` on non-numeric strings, `null`, or `undefined`);
  infinities are out of scope (the spec's non-goals accept ordinary
  floating-point semantics, and no claim exercises overflow).
* Request-body values are modelled by `JsVal` (`undefined`, `null`, numbers,
  strings), with JavaScript truthiness `jsTruthy`.
* The Prisma database is modelled by `Store`: flat lists of records in
  insertion order.  `orderBy: { createdAt: 'asc' }` is modelled as a stable
  merge sort on the stored order, and Prisma's unique lookups as `List.find?`.
* Each controller handler becomes a pure function from a `Store` plus
  request fields (and the DB-assigned fresh id and `now()` timestamp)
  to a response value and the updated `Store`.  Response constructors are in
  one-to-one correspondence with the handler's `return` statements.
-/

/-! ## JavaScript values and numbers -/

/-- A JavaScript value as it can appear in a request body field.
Objects/arrays/booleans are not exercised by the API surface modelled here. -/
inductive JsVal where
  | undef
  | null
  | num (value : ℚ)
  | str (value : String)
deriving DecidableEq

/-- A JavaScript number: `none` models `NaN`. -/
abbrev JsNumber := Option ℚ

/-- JavaScript truthiness for the values of `JsVal`. -/
def jsTruthy : JsVal → Bool
  | .undef => false
  | .null => false
  | .num q => q != 0
  | .str s => s != ""

/-- Value of a nonempty list of decimal digit characters; `none` when some
character is not a digit or the list is empty. -/
def digitsVal : List Char → Option Nat
  | [] => none
  | cs =>
    if cs.all Char.isDigit then
      some (cs.foldl (fun acc c => 10 * acc + (c.toNat - 48)) 0)
    else none

/-- Model of JavaScript `parseFloat` on a string: optional sign, decimal
digits, optional fractional part.  Strings outside this grammar are modelled
as `NaN` (`none`).  (JavaScript would also accept exponents, `Infinity` and
numeric prefixes of garbage; no code path under verification depends on
those, and every string used in the theorems below is either fully numeric
or fully non-numeric, where this model agrees with JavaScript.) -/
def parseFloatString (s : String) : Option ℚ :=
  let cs := s.data
  let signBody : ℚ × List Char :=
    match cs with
    | '-' :: rest => (-1, rest)
    | '+' :: rest => (1, rest)
    | _ => (1, cs)
  match signBody.2.span (fun c => c != '.') with
  | (intPart, []) => (digitsVal intPart).map (fun n => signBody.1 * (n : ℚ))
  | (intPart, _ :: fracPart) =>
    match digitsVal intPart, digitsVal fracPart with
    | some n, some f =>
      some (signBody.1 * ((n : ℚ) + (f : ℚ) / ((10 : ℚ) ^ fracPart.length)))
    | _, _ => none

/-- JavaScript `parseFloat` applied to a request-body value:
numbers pass through, strings are parsed, `null`/`undefined` give `NaN`. -/
def parseFloat : JsVal → JsNumber
  | .num q => some q
  | .str s => parseFloatString s
  | _ => none

/-- IEEE-style addition restricted to finite values and `NaN`. -/
def jsAdd : JsNumber → JsNumber → JsNumber
  | some a, some b => some (a + b)
  | _, _ => none

/-- IEEE-style subtraction restricted to finite values and `NaN`. -/
def jsSub : JsNumber → JsNumber → JsNumber
  | some a, some b => some (a - b)
  | _, _ => none

/-- IEEE-style multiplication restricted to finite values and `NaN`. -/
def jsMul : JsNumber → JsNumber → JsNumber
  | some a, some b => some (a * b)
  | _, _ => none

/-- IEEE-style division restricted to finite values and `NaN`.  The
`b = 0` branch (which JavaScript maps to an infinity) is unreachable in
`computeResult`, whose `DIVIDE` case guards `operand === 0` first. -/
def jsDiv : JsNumber → JsNumber → JsNumber
  | some a, some b => if b = 0 then none else some (a / b)
  | _, _ => none

/-- JavaScript strict inequality `!==` on numbers: `NaN` is unequal to
everything, including itself. -/
def jsStrictNeq : JsNumber → JsNumber → Bool
  | some a, some b => a != b
  | _, _ => true

/-! ## Result Computation Engine (`computeResult`) -/

/-- The two `throw new Error(...)` cases of `computeResult`. -/
inductive CalcError where
  | divisionByZero
  | invalidOperationType (t : String)
deriving DecidableEq

/-- `computeResult(previousValue, operation, operand)` from
`src/models/operation-model.ts`: a pure switch over the operation-type
string, throwing (modelled by `Except.error`) on division by zero and on an
unrecognized operation type.  The `switch` over string literals is rendered
as the equivalent chain of string equality tests. -/
def computeResult (previousValue : JsNumber) (operation : String)
    (operand : JsNumber) : Except CalcError JsNumber :=
  if operation = "ADD" then .ok (jsAdd previousValue operand)
  else if operation = "SUBTRACT" then .ok (jsSub previousValue operand)
  else if operation = "MULTIPLY" then .ok (jsMul previousValue operand)
  else if operation = "DIVIDE" then
    if operand = some 0 then .error .divisionByZero
    else .ok (jsDiv previousValue operand)
  else .error (.invalidOperationType operation)

/-- The four recognized operation-type strings
(`validOperations` in `OperationController.create`,
`isValidOperationType` in the model layer). -/
def validOperations : List String := ["ADD", "SUBTRACT", "MULTIPLY", "DIVIDE"]

/-! ## Claim C1 -/

/-- C1: for all numbers `v` and `w`, the Result Computation Engine computes
`+`, `-` and `*` unconditionally, computes `/` when `w ≠ 0`, fails with
`InvalidOperation` (division by zero) on `DIVIDE` with a zero operand, and
fails with `InvalidOperation` (unrecognized operation kind) on any kind
outside the four recognized values.  Each side condition scopes only over
its own clause.  Purity and determinism hold by construction:
`computeResult` is embedded as a total Lean function of its three arguments
only, faithfully to the source, which reads no state. -/
theorem C1_compute_engine (v w : ℚ) (k : String) :
    computeResult (some v) "ADD" (some w) = .ok (some (v + w)) ∧
    computeResult (some v) "SUBTRACT" (some w) = .ok (some (v - w)) ∧
    computeResult (some v) "MULTIPLY" (some w) = .ok (some (v * w)) ∧
    (w ≠ 0 →
      computeResult (some v) "DIVIDE" (some w) = .ok (some (v / w))) ∧
    computeResult (some v) "DIVIDE" (some 0) = .error .divisionByZero ∧
    (k ∉ validOperations →
      computeResult (some v) k (some w) =
        .error (.invalidOperationType k)) := by
  refine ⟨by simp [computeResult, jsAdd], by simp [computeResult, jsSub],
    by simp [computeResult, jsMul], ?_, by simp [computeResult], ?_⟩
  · intro hw
    simp [computeResult, jsDiv, hw]
  · intro hk
    simp only [validOperations, List.mem_cons, List.not_mem_nil, or_false,
      not_or] at hk
    obtain ⟨h1, h2, h3, h4⟩ := hk
    simp [computeResult, h1, h2, h3, h4]

/-- Witness for C1 at `v = 42`, `w = 7`, `k = "MOD"`, matching the spec's
worked examples (`42 / 7 = 6` among them), with the two clause-local side
conditions discharged there. -/
theorem C1_compute_engine_witness :
    computeResult (some 42) "ADD" (some 7) = .ok (some (42 + 7)) ∧
    computeResult (some 42) "SUBTRACT" (some 7) = .ok (some (42 - 7)) ∧
    computeResult (some 42) "MULTIPLY" (some 7) = .ok (some (42 * 7)) ∧
    ((7 : ℚ) ≠ 0 ∧
     computeResult (some 42) "DIVIDE" (some 7) = .ok (some (42 / 7))) ∧
    computeResult (some 42) "DIVIDE" (some 0) = .error .divisionByZero ∧
    ("MOD" ∉ validOperations ∧
     computeResult (some 42) "MOD" (some 7) =
       .error (.invalidOperationType "MOD")) :=
  have h := C1_compute_engine 42 7 "MOD"
  ⟨h.1, h.2.1, h.2.2.1, ⟨by norm_num, h.2.2.2.1 (by norm_num)⟩,
   h.2.2.2.2.1, ⟨by decide, h.2.2.2.2.2 (by decide)⟩⟩

/-! ## Computation Tree Store: records and database state -/

/-- A `Discussion` row (Prisma model): opaque id, the root value, author,
creation timestamp (modelled as a `Nat`; only its ordering matters). -/
structure Discussion where
  id : String
  startingNumber : JsNumber
  authorId : String
  createdAt : Nat
deriving DecidableEq

/-- An `Operation` row (Prisma model). -/
structure Operation where
  id : String
  discussionId : String
  parentId : Option String
  operationType : String
  operand : JsNumber
  result : JsNumber
  authorId : String
  createdAt : Nat
deriving DecidableEq

/-- The database state: all rows of both tables, in insertion order. -/
structure Store where
  discussions : List Discussion
  operations : List Operation
deriving DecidableEq

def emptyStore : Store := ⟨[], []⟩

/-- Ascending comparison on creation timestamps, the key of every
`orderBy: { createdAt: 'asc' }` clause. -/
def createdAsc (a b : Operation) : Bool := a.createdAt ≤ b.createdAt

/-- Descending comparison on creation timestamps, the key of the
`orderBy: { createdAt: 'desc' }` clause in `DiscussionRepository.findAll`. -/
def createdDesc (a b : Discussion) : Bool := b.createdAt ≤ a.createdAt

/-! ## Repository / model queries

Prisma `findUnique` becomes `List.find?`; `findMany` with `orderBy` becomes
filter-then-stable-sort.  Lookups whose `where` key comes from a request
body compare the raw `JsVal` against the stored string id, so a non-string
id matches nothing. -/

/-- `DiscussionRepository.findById` (also `DiscussionModel.findById`):
unique lookup by id. -/
def DiscussionRepository.findById (s : Store) (id : JsVal) : Option Discussion :=
  s.discussions.find? (fun d => id = JsVal.str d.id)

/-- `DiscussionModel.findByStartingNumber`: unique lookup by the root value.
Note `none` (`NaN`) compares equal to itself here, matching PostgreSQL
float equality (`NaN = NaN` is true in PostgreSQL). -/
def DiscussionModel.findByStartingNumber (s : Store) (v : JsNumber) :
    Option Discussion :=
  s.discussions.find? (fun d => d.startingNumber = v)

/-- `OperationRepository.findById`: unique lookup by id. -/
def OperationRepository.findById (s : Store) (id : JsVal) : Option Operation :=
  s.operations.find? (fun o => id = JsVal.str o.id)

/-- `OperationRepository.findByDiscussion` (also
`OperationModel.findByDiscussion`): all operations of a discussion,
`orderBy: { createdAt: 'asc' }`. -/
def OperationRepository.findByDiscussion (s : Store) (discussionId : String) :
    List Operation :=
  (s.operations.filter (fun o => o.discussionId = discussionId)).mergeSort
    createdAsc

/-- `OperationModel.getChildren`: all operations whose `parentId` is the
given operation, `orderBy: { createdAt: 'asc' }`. -/
def OperationModel.getChildren (s : Store) (operationId : String) :
    List Operation :=
  (s.operations.filter (fun o => o.parentId = some operationId)).mergeSort
    createdAsc

/-- `OperationModel.getRootOperations`: operations of a discussion with
`parentId: null`, `orderBy: { createdAt: 'asc' }`. -/
def OperationModel.getRootOperations (s : Store) (discussionId : String) :
    List Operation :=
  (s.operations.filter
      (fun o => o.discussionId = discussionId && o.parentId = none)).mergeSort
    createdAsc

/-- `DiscussionRepository.findAll`: every discussion, newest first
(`orderBy: { createdAt: 'desc' }`), each including its operations oldest
first (`operations: { orderBy: { createdAt: 'asc' } }`). -/
def DiscussionRepository.findAll (s : Store) :
    List (Discussion × List Operation) :=
  (s.discussions.mergeSort createdDesc).map
    (fun d => (d, OperationRepository.findByDiscussion s d.id))

/-- `OperationModel.countByDiscussion`. -/
def OperationModel.countByDiscussion (s : Store) (discussionId : String) : Nat :=
  (s.operations.filter (fun o => o.discussionId = discussionId)).length

/-! ## Chain Resolver (`OperationModel.getOperationChain`)

The source is a `while (currentOperation)` loop following `parentId`
and `unshift`-ing each visited node.  The loop is embedded with explicit
fuel counting the parent-lookup steps; `none` models the loop running
beyond the fuel bound (i.e. nontermination is modelled as fuel exhaustion
at every finite bound). -/

def getOperationChainAux (s : Store) (fuel : Nat) (cur : Option Operation)
    (chain : List Operation) : Option (List Operation) :=
  match cur with
  | none => some chain
  | some cur =>
    -- chain.unshift(currentOperation); then
    -- `if (!currentOperation.parentId) break` (`!""` is also a break in JS)
    match cur.parentId with
    | none => some (cur :: chain)
    | some p =>
      if p = "" then some (cur :: chain)
      else
        match fuel with
        | 0 => none
        | fuel + 1 =>
          getOperationChainAux s fuel
            (s.operations.find? (fun o => o.id = p)) (cur :: chain)

/-- `OperationModel.getOperationChain(operationId)` with fuel
`s.operations.length` (enough for any store whose parent links point
strictly earlier in creation order). -/
def OperationModel.getOperationChain (s : Store) (operationId : String) :
    Option (List Operation) :=
  getOperationChainAux s s.operations.length
    (s.operations.find? (fun o => o.id = operationId)) []

/-! ## Tree Access API: `DiscussionController.create` -/

/-- The `return` statements of `DiscussionController.create`
(HTTP status in parentheses). -/
inductive CreateDiscussionResult where
  /-- (400) `startingNumber is required` -/
  | missingStartingNumber
  /-- (409) `This starting number is already taken`, with the existing
  discussion's id and startingNumber as a hint -/
  | conflict (existingId : String) (existingStartingNumber : JsNumber)
  /-- (201) the new discussion -/
  | created (d : Discussion)
deriving DecidableEq

/-- `DiscussionController.create`: guards `startingNumber` against
`undefined`/`null`, coerces with `parseFloat`, checks
`DiscussionModel.findByStartingNumber`, and inserts on success.  `freshId`
and `now` stand for the id and `createdAt` the database assigns. -/
def DiscussionController.create (s : Store) (userId : String)
    (startingNumber : JsVal) (freshId : String) (now : Nat) :
    CreateDiscussionResult × Store :=
  if startingNumber = JsVal.undef ∨ startingNumber = JsVal.null then
    (.missingStartingNumber, s)
  else
    match DiscussionModel.findByStartingNumber s (parseFloat startingNumber) with
    | some existing => (.conflict existing.id existing.startingNumber, s)
    | none =>
      (.created ⟨freshId, parseFloat startingNumber, userId, now⟩,
       { s with discussions :=
          s.discussions ++ [⟨freshId, parseFloat startingNumber, userId, now⟩] })

/-! ## Tree Access API: `DiscussionController.update` -/

/-- The `return` statements of `DiscussionController.update`. -/
inductive UpdateDiscussionResult where
  /-- (400) `Discussion ID is required` -/
  | missingId
  /-- (400) `startingNumber is required` -/
  | missingStartingNumber
  /-- (404) `Discussion not found` -/
  | notFound
  /-- (403) `Not authorized to update this discussion` -/
  | forbidden
  /-- (409) `This starting number is already taken by another discussion`,
  with the existing discussion as a hint -/
  | conflict (existingId : String) (existingStartingNumber : JsNumber)
  /-- (200) the updated discussion -/
  | updated (d : Discussion)
deriving DecidableEq

/-- `DiscussionRepository.update`: overwrite the `startingNumber` of the row
with the given id. -/
def DiscussionRepository.update (s : Store) (id : String) (v : JsNumber) :
    Store :=
  { s with
    discussions := s.discussions.map
      (fun d => if d.id = id then { d with startingNumber := v } else d) }

/-- `DiscussionController.update`: `!id` guard, `startingNumber`
presence guard, `NotFound`, author-only check, then — only when the parsed
new value differs (`!==`) from the current one — the uniqueness check, and
finally the write. -/
def DiscussionController.update (s : Store) (requestorId : String)
    (id startingNumber : JsVal) : UpdateDiscussionResult × Store :=
  if jsTruthy id = false then (.missingId, s)
  else if startingNumber = JsVal.undef ∨ startingNumber = JsVal.null then
    (.missingStartingNumber, s)
  else
    match DiscussionRepository.findById s id with
    | none => (.notFound, s)
    | some discussion =>
      if discussion.authorId ≠ requestorId then (.forbidden, s)
      else
        if jsStrictNeq (parseFloat startingNumber) discussion.startingNumber then
          match DiscussionModel.findByStartingNumber s
              (parseFloat startingNumber) with
          | some existing =>
            (.conflict existing.id existing.startingNumber, s)
          | none =>
            (.updated { discussion with
                startingNumber := parseFloat startingNumber },
             DiscussionRepository.update s discussion.id
               (parseFloat startingNumber))
        else
          (.updated { discussion with
              startingNumber := parseFloat startingNumber },
           DiscussionRepository.update s discussion.id
             (parseFloat startingNumber))

/-! ## Tree Access API: `OperationController.create` -/

/-- The `return` statements of `OperationController.create`. -/
inductive CreateOperationResult where
  /-- (400) `discussionId, operationType, and operand are required` -/
  | missingFields
  /-- (400) `operationType must be ADD, SUBTRACT, MULTIPLY, or DIVIDE` -/
  | invalidOperationType
  /-- (404) `Discussion not found` -/
  | discussionNotFound
  /-- (404) `Parent operation not found` -/
  | parentNotFound
  /-- (400) `Parent operation does not belong to this discussion`
  (the spec's `InvalidReference`) -/
  | parentFromOtherDiscussion
  /-- (500) a `computeResult` throw caught by the handler's `catch`
  (the spec's `InvalidOperation`, propagated from the engine) -/
  | engineError (e : CalcError)
  /-- (201) the new operation -/
  | created (o : Operation)
deriving DecidableEq

/-- Tail of `OperationController.create` after the previous value is
resolved: invoke the engine and, on success, persist the node. -/
def persistOperation (s : Store) (userId : String) (discussion : Discussion)
    (storedParentId : Option String) (ty : String) (operandNum prev : JsNumber)
    (freshId : String) (now : Nat) : CreateOperationResult × Store :=
  match computeResult prev ty operandNum with
  | .error e => (.engineError e, s)
  | .ok r =>
    (.created ⟨freshId, discussion.id, storedParentId, ty, operandNum, r,
       userId, now⟩,
     { s with operations := s.operations ++
        [⟨freshId, discussion.id, storedParentId, ty, operandNum, r,
          userId, now⟩] })

/-- The operation-type string carried by a request value that survived the
`validOperations.includes` check (such a value is always a string). -/
def opTypeString : JsVal → String
  | JsVal.str t => t
  | _ => ""

/-- `validOperations.includes(operationType)`: the request value strictly
equals one of the four recognized strings. -/
def includesOperationType (v : JsVal) : Bool :=
  validOperations.any (fun t => v = JsVal.str t)

/-- `OperationController.create`: presence guards
(`!discussionId || !operationType || operand === undefined || operand ===
null`), the `validOperations.includes` check, discussion lookup, previous
value resolution (parent branch only when `parentId` is truthy, with the
same-discussion check), engine invocation, and insertion with
`parentId: parentId || null`.  Reaching the parent branch's success path
forces the body `parentId` to equal `JsVal.str parent.id`, so the stored
parent id is written as `some parent.id`; a falsy `parentId` is stored as
`none`. -/
def OperationController.create (s : Store) (userId : String)
    (discussionId parentId operationType operand : JsVal)
    (freshId : String) (now : Nat) : CreateOperationResult × Store :=
  if jsTruthy discussionId = false ∨ jsTruthy operationType = false ∨
      operand = JsVal.undef ∨ operand = JsVal.null then
    (.missingFields, s)
  else if includesOperationType operationType = false then
    (.invalidOperationType, s)
  else
    match DiscussionRepository.findById s discussionId with
    | none => (.discussionNotFound, s)
    | some discussion =>
      if jsTruthy parentId then
        match OperationRepository.findById s parentId with
        | none => (.parentNotFound, s)
        | some parent =>
          if JsVal.str parent.discussionId ≠ discussionId then
            (.parentFromOtherDiscussion, s)
          else
            persistOperation s userId discussion (some parent.id)
              (opTypeString operationType)
              (parseFloat operand) parent.result freshId now
      else
        persistOperation s userId discussion none
          (opTypeString operationType)
          (parseFloat operand) discussion.startingNumber freshId now

/-! ## Chain predicates and store invariants -/

instance {ε α : Type} [DecidableEq ε] [DecidableEq α] :
    DecidableEq (Except ε α) := fun x y =>
  match x, y with
  | .error a, .error b =>
    if h : a = b then isTrue (by subst h; rfl)
    else isFalse (by intro hc; cases hc; exact h rfl)
  | .ok a, .ok b =>
    if h : a = b then isTrue (by subst h; rfl)
    else isFalse (by intro hc; cases hc; exact h rfl)
  | .error _, .ok _ => isFalse (by intro hc; cases hc)
  | .ok _, .error _ => isFalse (by intro hc; cases hc)

/-- Each element after the first names its predecessor as its parent. -/
def linkedChain : List Operation → Bool
  | [] => true
  | [_] => true
  | a :: b :: rest => (b.parentId = some a.id) && linkedChain (b :: rest)

/-- Folding the Result Computation Engine along a chain from previous value
`v` reproduces every stored `result`. -/
def chainComputesB : JsNumber → List Operation → Bool
  | _, [] => true
  | v, o :: rest =>
    (computeResult v o.operationType o.operand = Except.ok o.result) &&
      chainComputesB o.result rest

/-- Well-formedness invariants of the store, as maintained by the creation
endpoints: unique ids in both tables; every parent link points to a strictly
earlier operation of the same discussion; no stored parent id is the empty
string; every operation's discussion exists; and every operation's stored
`result` is what the engine computes from its previous value (the root's
`startingNumber` for parentless operations, the parent's `result`
otherwise). -/
structure StoreWF (s : Store) : Prop where
  opNodup : (s.operations.map Operation.id).Nodup
  discNodup : (s.discussions.map Discussion.id).Nodup
  parentEarlier : ∀ i, ∀ hi : i < s.operations.length, ∀ p,
    (s.operations.get ⟨i, hi⟩).parentId = some p →
    ∃ j, ∃ hj : j < s.operations.length, j < i ∧
      (s.operations.get ⟨j, hj⟩).id = p ∧
      (s.operations.get ⟨j, hj⟩).discussionId =
        (s.operations.get ⟨i, hi⟩).discussionId
  parentNonempty : ∀ o ∈ s.operations, o.parentId ≠ some ""
  discExists : ∀ o ∈ s.operations, ∃ d ∈ s.discussions, d.id = o.discussionId
  rootOk : ∀ o ∈ s.operations, o.parentId = none →
    ∀ d ∈ s.discussions, d.id = o.discussionId →
    computeResult d.startingNumber o.operationType o.operand = .ok o.result
  parentOk : ∀ o ∈ s.operations, ∀ p, o.parentId = some p →
    ∀ x ∈ s.operations, x.id = p →
    computeResult x.result o.operationType o.operand = .ok o.result

/-- Stores reachable from the empty database through the two creation
endpoints of the Tree Access API (`POST /api/discussions`,
`POST /api/operations`), for arbitrary request bodies.  The side conditions
state only what the database guarantees: freshly generated ids are unique
within their table. -/
inductive ReachC : Store → Prop where
  | empty : ReachC emptyStore
  | createDiscussion (s : Store) (userId : String) (startingNumber : JsVal)
      (freshId : String) (now : Nat) :
      ReachC s → freshId ∉ s.discussions.map Discussion.id →
      ReachC (DiscussionController.create s userId startingNumber freshId now).2
  | createOperation (s : Store) (userId : String)
      (discussionId parentId operationType operand : JsVal)
      (freshId : String) (now : Nat) :
      ReachC s → freshId ∉ s.operations.map Operation.id →
      ReachC (OperationController.create s userId discussionId parentId
        operationType operand freshId now).2

/-! ### Helper lemmas -/

/-- In a table with unique ids, looking an element's id up finds it. -/
theorem find?_id_of_mem {l : List Operation}
    (hn : (l.map Operation.id).Nodup) {o : Operation} (ho : o ∈ l) :
    l.find? (fun x => x.id = o.id) = some o := by
  induction l with
  | nil => cases ho
  | cons h t ih =>
    simp only [List.map_cons, List.nodup_cons] at hn
    rcases List.mem_cons.mp ho with rfl | hmem
    · simp [List.find?]
    · have hne : h.id ≠ o.id := by
        intro he
        exact hn.1 (he ▸ List.mem_map_of_mem Operation.id hmem)
      simp only [List.find?]
      rw [decide_eq_false hne]
      exact ih hn.2 hmem

/-- Two operations of a unique-id table with the same id are equal. -/
theorem op_eq_of_id_eq {l : List Operation}
    (hn : (l.map Operation.id).Nodup) {a b : Operation}
    (ha : a ∈ l) (hb : b ∈ l) (h : a.id = b.id) : a = b :=
  List.inj_on_of_nodup_map hn ha hb h

/-- Extending a linked chain by a child of its last element. -/
theorem linkedChain_append {xs : List Operation} {a o : Operation}
    (hx : linkedChain xs = true) (hlast : xs.getLast? = some a)
    (ho : o.parentId = some a.id) :
    linkedChain (xs ++ [o]) = true := by
  induction xs with
  | nil => cases hlast
  | cons x t ih =>
    cases t with
    | nil =>
      simp only [List.getLast?_singleton, Option.some.injEq] at hlast
      subst hlast
      simp [linkedChain, ho]
    | cons y u =>
      simp only [linkedChain, Bool.and_eq_true, decide_eq_true_eq] at hx
      have h2 := ih hx.2 (by simpa using hlast)
      simp only [List.cons_append] at h2 ⊢
      simp only [linkedChain, Bool.and_eq_true, decide_eq_true_eq]
      exact ⟨hx.1, h2⟩

/-- Unfolding equation for `chainComputesB` on a `cons`. -/
theorem chainComputesB_cons (v : JsNumber) (o : Operation)
    (rest : List Operation) :
    chainComputesB v (o :: rest) =
      (decide (computeResult v o.operationType o.operand = Except.ok o.result)
        && chainComputesB o.result rest) := rfl

/-- `chainComputesB` over an appended element: the new element is checked
against the result of the previous last element (or the start value for an
empty prefix). -/
theorem chainComputesB_append (v : JsNumber) (xs : List Operation)
    (o : Operation) :
    chainComputesB v (xs ++ [o]) =
      (chainComputesB v xs &&
        decide (computeResult (((xs.getLast?).map Operation.result).getD v)
          o.operationType o.operand = Except.ok o.result)) := by
  induction xs generalizing v with
  | nil => simp [chainComputesB]
  | cons x t ih =>
    rw [List.cons_append, chainComputesB_cons, chainComputesB_cons,
      ih x.result, Bool.and_assoc]
    cases t with
    | nil => simp [chainComputesB]
    | cons y u =>
      rw [List.getLast?_cons_cons]
      have ha : ∃ a, (y :: u).getLast? = some a := by
        cases h : (y :: u).getLast? with
        | some a => exact ⟨a, rfl⟩
        | none => exact absurd h (by simp)
      obtain ⟨a, ha⟩ := ha
      rw [ha]
      simp

/-- `get` on a list extended on the right, inside the original part. -/
theorem get_append_singleton_left {α : Type} (l : List α) (a : α) {i : Nat}
    (h : i < l.length) (h' : i < (l ++ [a]).length) :
    (l ++ [a]).get ⟨i, h'⟩ = l.get ⟨i, h⟩ := by
  simp [List.get_eq_getElem, List.getElem_append_left h]

/-- `get` on a list extended on the right, at the new position. -/
theorem get_append_singleton_length {α : Type} (l : List α) (a : α) {i : Nat}
    (hil : i = l.length) (h' : i < (l ++ [a]).length) :
    (l ++ [a]).get ⟨i, h'⟩ = a := by
  simp [List.get_eq_getElem, List.getElem_concat_length _ _ _ hil]

/-- Unpacking a successful discussion lookup. -/
theorem findById_disc {s : Store} {id : JsVal} {d : Discussion}
    (h : DiscussionRepository.findById s id = some d) :
    d ∈ s.discussions ∧ id = JsVal.str d.id :=
  ⟨List.mem_of_find?_eq_some h, by simpa using List.find?_some h⟩

/-- Unpacking a successful operation lookup. -/
theorem findById_op {s : Store} {id : JsVal} {o : Operation}
    (h : OperationRepository.findById s id = some o) :
    o ∈ s.operations ∧ id = JsVal.str o.id :=
  ⟨List.mem_of_find?_eq_some h, by simpa using List.find?_some h⟩

/-- Unpacking a successful lookup by starting number. -/
theorem findByStartingNumber_some {s : Store} {v : JsNumber} {d : Discussion}
    (h : DiscussionModel.findByStartingNumber s v = some d) :
    d ∈ s.discussions ∧ d.startingNumber = v :=
  ⟨List.mem_of_find?_eq_some h, by simpa using List.find?_some h⟩

/-- In a well-formed store, every stored parent id is a stored id. -/
theorem parentId_mem_ids {s : Store} (hwf : StoreWF s) {o : Operation}
    (ho : o ∈ s.operations) {p : String} (hp : o.parentId = some p) :
    p ∈ s.operations.map Operation.id := by
  obtain ⟨⟨i, hi⟩, hget⟩ := List.mem_iff_get.mp ho
  obtain ⟨j, hj, _, hid, _⟩ := hwf.parentEarlier i hi p (by rw [hget]; exact hp)
  exact hid ▸ List.mem_map_of_mem _ (List.get_mem _ _ _)

theorem storeWF_empty : StoreWF emptyStore := by
  refine ⟨?_, ?_, ?_, ?_, ?_, ?_, ?_⟩ <;> simp [emptyStore]

/-- `DiscussionController.create` preserves the store invariants when the
database hands it a fresh discussion id. -/
theorem storeWF_createDiscussion (s : Store) (u : String) (sn : JsVal)
    (fid : String) (now : Nat) (hwf : StoreWF s)
    (hfresh : fid ∉ s.discussions.map Discussion.id) :
    StoreWF (DiscussionController.create s u sn fid now).2 := by
  unfold DiscussionController.create
  split
  · exact hwf
  split
  · exact hwf
  refine ⟨hwf.opNodup, ?_, hwf.parentEarlier, hwf.parentNonempty, ?_, ?_,
    hwf.parentOk⟩
  · simp only [List.map_append, List.map_cons, List.map_nil,
      List.nodup_append]
    refine ⟨hwf.discNodup, List.nodup_singleton _, ?_⟩
    intro x hx hx2
    simp only [List.mem_singleton] at hx2
    subst hx2
    exact hfresh hx
  · intro o ho
    obtain ⟨d, hd, hid⟩ := hwf.discExists o ho
    exact ⟨d, List.mem_append_left _ hd, hid⟩
  · intro o ho hnone d hd hdid
    rcases List.mem_append.mp hd with hd | hd
    · exact hwf.rootOk o ho hnone d hd hdid
    · exfalso
      simp only [List.mem_singleton] at hd
      subst hd
      obtain ⟨d', hd', hid'⟩ := hwf.discExists o ho
      apply hfresh
      have hfid : fid = o.discussionId := hdid
      rw [hfid, ← hid']
      exact List.mem_map_of_mem Discussion.id hd'

/-- The persist step of `OperationController.create` preserves the store
invariants, given a fresh operation id; the stored parent id, when present,
must point at a stored operation of the same discussion whose `result` is
the previous value, and a null parent means the previous value is the
discussion's `startingNumber`. -/
theorem storeWF_persist (s : Store) (u : String) (discussion : Discussion)
    (sp : Option String) (ty : String) (opnd prev : JsNumber)
    (fid : String) (now : Nat) (hwf : StoreWF s)
    (hfresh : fid ∉ s.operations.map Operation.id)
    (hdisc : discussion ∈ s.discussions)
    (hsp : ∀ p, sp = some p → p ≠ "" ∧ ∃ parent ∈ s.operations,
        parent.id = p ∧ parent.discussionId = discussion.id ∧
        parent.result = prev)
    (hroot : sp = none → prev = discussion.startingNumber) :
    StoreWF (persistOperation s u discussion sp ty opnd prev fid now).2 := by
  unfold persistOperation
  split
  · exact hwf
  rename_i r hr
  refine ⟨?_, hwf.discNodup, ?_, ?_, ?_, ?_, ?_⟩
  · -- opNodup
    simp only [List.map_append, List.map_cons, List.map_nil,
      List.nodup_append]
    refine ⟨hwf.opNodup, List.nodup_singleton _, ?_⟩
    intro x hx hx2
    simp only [List.mem_singleton] at hx2
    subst hx2
    exact hfresh hx
  · -- parentEarlier
    intro i hi p hp
    by_cases hilen : i < s.operations.length
    · rw [get_append_singleton_left _ _ hilen] at hp
      obtain ⟨j, hj, hji, hid, hdid⟩ := hwf.parentEarlier i hilen p hp
      have hj' : j < (s.operations ++
          [(⟨fid, discussion.id, sp, ty, opnd, r, u, now⟩ : Operation)]).length := by
        simp only [List.length_append, List.length_cons, List.length_nil]
        omega
      refine ⟨j, hj', hji, ?_, ?_⟩
      · rw [get_append_singleton_left _ _ hj]
        exact hid
      · rw [get_append_singleton_left _ _ hj,
          get_append_singleton_left _ _ hilen]
        exact hdid
    · have hieq : i = s.operations.length := by
        simp only [List.length_append, List.length_cons, List.length_nil] at hi
        omega
      rw [get_append_singleton_length _ _ hieq] at hp
      obtain ⟨hpne, parent, hparent, hpid, hpdid, hpres⟩ := hsp p hp
      obtain ⟨⟨j, hj⟩, hget⟩ := List.mem_iff_get.mp hparent
      have hj' : j < (s.operations ++
          [(⟨fid, discussion.id, sp, ty, opnd, r, u, now⟩ : Operation)]).length := by
        simp only [List.length_append, List.length_cons, List.length_nil]
        omega
      refine ⟨j, hj', by omega, ?_, ?_⟩
      · rw [get_append_singleton_left _ _ hj, hget]
        exact hpid
      · rw [get_append_singleton_left _ _ hj, hget,
          get_append_singleton_length _ _ hieq]
        exact hpdid
  · -- parentNonempty
    intro o ho
    rcases List.mem_append.mp ho with ho | ho
    · exact hwf.parentNonempty o ho
    · simp only [List.mem_singleton] at ho
      subst ho
      intro hcon
      exact (hsp "" hcon).1 rfl
  · -- discExists
    intro o ho
    rcases List.mem_append.mp ho with ho | ho
    · exact hwf.discExists o ho
    · simp only [List.mem_singleton] at ho
      subst ho
      exact ⟨discussion, hdisc, rfl⟩
  · -- rootOk
    intro o ho hnone d hd hdid
    rcases List.mem_append.mp ho with ho | ho
    · exact hwf.rootOk o ho hnone d hd hdid
    · simp only [List.mem_singleton] at ho
      subst ho
      have hdeq : d = discussion :=
        List.inj_on_of_nodup_map hwf.discNodup hd hdisc hdid
      show computeResult d.startingNumber ty opnd = .ok r
      rw [hdeq, ← hroot hnone]
      exact hr
  · -- parentOk
    intro o ho p hp x hx hxid
    rcases List.mem_append.mp ho with ho | ho
    · rcases List.mem_append.mp hx with hx | hx
      · exact hwf.parentOk o ho p hp x hx hxid
      · exfalso
        simp only [List.mem_singleton] at hx
        subst hx
        apply hfresh
        have hfp : fid = p := hxid
        rw [hfp]
        exact parentId_mem_ids hwf ho hp
    · simp only [List.mem_singleton] at ho
      subst ho
      obtain ⟨hpne, parent, hparent, hpid, hpdid, hpres⟩ := hsp p hp
      rcases List.mem_append.mp hx with hx | hx
      · have hxeq : x = parent :=
          op_eq_of_id_eq hwf.opNodup hx hparent (hxid.trans hpid.symm)
        show computeResult x.result ty opnd = .ok r
        rw [hxeq, hpres]
        exact hr
      · exfalso
        simp only [List.mem_singleton] at hx
        subst hx
        apply hfresh
        have hfp : fid = p := hxid
        rw [hfp, ← hpid]
        exact List.mem_map_of_mem Operation.id hparent

/-- `OperationController.create` preserves the store invariants when the
database hands it a fresh operation id. -/
theorem storeWF_createOperation (s : Store) (u : String)
    (did pid ty opnd : JsVal) (fid : String) (now : Nat)
    (hwf : StoreWF s) (hfresh : fid ∉ s.operations.map Operation.id) :
    StoreWF (OperationController.create s u did pid ty opnd fid now).2 := by
  unfold OperationController.create
  split
  · exact hwf
  split
  · exact hwf
  split
  · exact hwf
  rename_i discussion hdisc
  split
  · -- parent branch: `parentId` truthy
    rename_i hpid
    split
    · exact hwf
    rename_i parent hpar
    split
    · exact hwf
    rename_i hsame
    obtain ⟨hparmem, hpideq⟩ := findById_op hpar
    obtain ⟨hdiscmem, _⟩ := findById_disc hdisc
    have hsame' : parent.discussionId = discussion.id := by
      rw [not_not] at hsame
      have h2 := (findById_disc hdisc).2
      rw [h2] at hsame
      exact JsVal.str.inj hsame
    have hne : parent.id ≠ "" := by
      rw [hpideq] at hpid
      simpa [jsTruthy] using hpid
    refine storeWF_persist _ _ _ _ _ _ _ _ _ hwf hfresh hdiscmem ?_ ?_
    · intro p hp
      have hpp : parent.id = p := Option.some.inj hp
      subst hpp
      exact ⟨hne, parent, hparmem, rfl, hsame', rfl⟩
    · intro h
      exact absurd h (Option.some_ne_none _)
  · -- root branch: `parentId` falsy
    obtain ⟨hdiscmem, _⟩ := findById_disc hdisc
    refine storeWF_persist _ _ _ _ _ _ _ _ _ hwf hfresh hdiscmem ?_ ?_
    · intro p hp
      exact absurd hp (by simp)
    · intro _
      rfl

/-- Every store reachable through the creation endpoints satisfies the
store invariants. -/
theorem reachC_wf {s : Store} (h : ReachC s) : StoreWF s := by
  induction h with
  | empty => exact storeWF_empty
  | createDiscussion s u sn fid now _ hfresh ih =>
    exact storeWF_createDiscussion s u sn fid now ih hfresh
  | createOperation s u did pid ty opnd fid now _ hfresh ih =>
    exact storeWF_createOperation s u did pid ty opnd fid now ih hfresh

/-- Unfolding equation of the resolver loop at a present operation. -/
theorem getOperationChainAux_some (s : Store) (fuel : Nat) (cur : Operation)
    (chain : List Operation) :
    getOperationChainAux s fuel (some cur) chain =
      match cur.parentId with
      | none => some (cur :: chain)
      | some p =>
        if p = "" then some (cur :: chain)
        else
          match fuel with
          | 0 => none
          | fuel + 1 =>
            getOperationChainAux s fuel
              (s.operations.find? (fun o => o.id = p)) (cur :: chain) := by
  rw [getOperationChainAux]

/-- Main loop invariant of the Chain Resolver on a well-formed store:
started at the `i`-th stored operation with fuel at least `i`, the loop
terminates and prepends exactly the parent path of that operation — a
nonempty linked chain from a parentless operation down to it, entirely
inside the store and inside one discussion — and folding the engine from
the discussion's `startingNumber` along it reproduces every stored result. -/
theorem chainAux_spec {s : Store} (hwf : StoreWF s) :
    ∀ i, ∀ hi : i < s.operations.length, ∀ fuel acc, i ≤ fuel →
    ∃ path : List Operation,
      getOperationChainAux s fuel (some (s.operations.get ⟨i, hi⟩)) acc
        = some (path ++ acc) ∧
      path ≠ [] ∧
      path.getLast? = some (s.operations.get ⟨i, hi⟩) ∧
      linkedChain path = true ∧
      (∀ h, path.head? = some h → h.parentId = none) ∧
      (∀ x ∈ path, x ∈ s.operations ∧
        x.discussionId = (s.operations.get ⟨i, hi⟩).discussionId) ∧
      (∀ d ∈ s.discussions, d.id = (s.operations.get ⟨i, hi⟩).discussionId →
        chainComputesB d.startingNumber path = true) := by
  intro i
  induction i using Nat.strong_induction_on with
  | _ i IH =>
    intro hi fuel acc hfuel
    set o := s.operations.get ⟨i, hi⟩ with ho
    rw [getOperationChainAux_some]
    cases hpar : o.parentId with
    | none =>
      refine ⟨[o], rfl, by simp, by simp, by simp [linkedChain], ?_, ?_, ?_⟩
      · intro h hh
        simp only [List.head?_cons, Option.some.injEq] at hh
        subst hh
        exact hpar
      · intro x hx
        simp only [List.mem_singleton] at hx
        subst hx
        exact ⟨List.get_mem _ _ _, rfl⟩
      · intro d hd hdid
        have hr := hwf.rootOk o (List.get_mem _ _ _) hpar d hd hdid
        simp [chainComputesB_cons, chainComputesB, hr]
    | some p =>
      have hpne : p ≠ "" := by
        have hnc := hwf.parentNonempty o (List.get_mem _ _ _)
        rw [hpar] at hnc
        intro hcon
        subst hcon
        exact hnc rfl
      dsimp only
      rw [if_neg hpne]
      obtain ⟨j, hj, hji, hjid, hjdid⟩ := hwf.parentEarlier i hi p hpar
      cases fuel with
      | zero => omega
      | succ f =>
        have hfind : s.operations.find? (fun x => x.id = p) =
            some (s.operations.get ⟨j, hj⟩) := by
          have hf := find?_id_of_mem hwf.opNodup
            (List.get_mem s.operations j hj)
          rw [hjid] at hf
          exact hf
        rw [hfind]
        obtain ⟨path', heq', hne', hlast', hlink', hhead', hmem', hcomp'⟩ :=
          IH j hji hj f (o :: acc) (by omega)
        refine ⟨path' ++ [o], by simpa [List.append_assoc] using heq',
          by simp, List.getLast?_concat _, ?_, ?_, ?_, ?_⟩
        · exact linkedChain_append hlink' hlast' (by rw [hpar, hjid])
        · intro h hh
          obtain ⟨h0, t0, rfl⟩ := List.exists_cons_of_ne_nil hne'
          simp only [List.cons_append, List.head?_cons,
            Option.some.injEq] at hh
          subst hh
          exact hhead' _ rfl
        · intro x hx
          rcases List.mem_append.mp hx with hx | hx
          · obtain ⟨hx1, hx2⟩ := hmem' x hx
            exact ⟨hx1, hx2.trans hjdid⟩
          · simp only [List.mem_singleton] at hx
            subst hx
            exact ⟨List.get_mem _ _ _, rfl⟩
        · intro d hd hdid
          rw [chainComputesB_append]
          have h1 := hcomp' d hd (by rw [hdid, ← hjdid])
          have h2 := hwf.parentOk o (List.get_mem _ _ _) p hpar
            (s.operations.get ⟨j, hj⟩) (List.get_mem _ _ _) hjid
          rw [hlast']
          simp only [Option.map_some', Option.getD_some, Bool.and_eq_true,
            decide_eq_true_eq]
          exact ⟨h1, h2⟩

/-! ## Claims C2, C6, C7 -/

/-- C2 (amended to stores reachable by the creation endpoints alone): for
every stored operation `o`, the Chain Resolver returns exactly the parent
path of `o` — a nonempty chain that ends at `o`, starts at a parentless
operation, links each node to its predecessor, and stays inside the store
and inside `o`'s discussion — and folding `computeResult` from the owning
discussion's `startingNumber` along the chain reproduces every node's
stored `result`. -/
theorem C2_chain_correctness (s : Store) (hs : ReachC s) :
    ∀ o ∈ s.operations, ∃ c d,
      OperationModel.getOperationChain s o.id = some c ∧
      s.discussions.find? (fun x => x.id = o.discussionId) = some d ∧
      c ≠ [] ∧ c.getLast? = some o ∧ linkedChain c = true ∧
      (∀ h, c.head? = some h → h.parentId = none) ∧
      (∀ x ∈ c, x ∈ s.operations ∧ x.discussionId = o.discussionId) ∧
      chainComputesB d.startingNumber c = true := by
  intro o ho
  have hwf := reachC_wf hs
  have hfind : s.operations.find? (fun x => x.id = o.id) = some o :=
    find?_id_of_mem hwf.opNodup ho
  have hdisc : ∃ d, s.discussions.find? (fun x => x.id = o.discussionId)
      = some d := by
    obtain ⟨d, hd, hid⟩ := hwf.discExists o ho
    have hs2 : (s.discussions.find? (fun x => x.id = o.discussionId)).isSome
        := by
      rw [List.find?_isSome]
      exact ⟨d, hd, by simp [hid]⟩
    exact Option.isSome_iff_exists.mp hs2
  obtain ⟨d, hd⟩ := hdisc
  have hdmem : d ∈ s.discussions := List.mem_of_find?_eq_some hd
  have hdid : d.id = o.discussionId := by simpa using List.find?_some hd
  obtain ⟨⟨i, hi⟩, hget⟩ := List.mem_iff_get.mp ho
  obtain ⟨path, heq, hne, hlast, hlink, hhead, hmem, hcomp⟩ :=
    chainAux_spec hwf i hi s.operations.length [] (le_of_lt hi)
  rw [hget] at heq hlast hmem hcomp
  refine ⟨path, d, ?_, hd, hne, hlast, hlink, hhead, hmem,
    hcomp d hdmem hdid⟩
  unfold OperationModel.getOperationChain
  rw [hfind, heq, List.append_nil]

/-- The spec's §8 scenario, step 1: discussion with `startingNumber = 42`
(id `d1`). -/
def demoStore1 : Store :=
  (DiscussionController.create emptyStore "u1" (JsVal.num 42) "d1" 0).2

/-- Step 2: root operation `ADD 10` (id `o1`, result 52). -/
def demoStore2 : Store :=
  (OperationController.create demoStore1 "u1" (JsVal.str "d1") JsVal.undef
    (JsVal.str "ADD") (JsVal.num 10) "o1" 1).2

/-- Step 3: operation `MULTIPLY 2` under `o1` (id `o2`, result 104). -/
def demoStore : Store :=
  (OperationController.create demoStore2 "u1" (JsVal.str "d1")
    (JsVal.str "o1") (JsVal.str "MULTIPLY") (JsVal.num 2) "o2" 2).2

/-- The second operation of the demo scenario, as stored. -/
def demoOp2 : Operation :=
  ⟨"o2", "d1", some "o1", "MULTIPLY", some 2, some 104, "u1", 2⟩

/-- Evaluated form of `demoStore1`. -/
theorem demoStore1_eq :
    demoStore1 = ⟨[⟨"d1", some 42, "u1", 0⟩], []⟩ := by
  simp [demoStore1, DiscussionController.create, emptyStore,
    DiscussionModel.findByStartingNumber, parseFloat]

/-- Evaluated form of `demoStore2` (`42 + 10 = 52`). -/
theorem demoStore2_eq :
    demoStore2 = ⟨[⟨"d1", some 42, "u1", 0⟩],
      [⟨"o1", "d1", none, "ADD", some 10, some 52, "u1", 1⟩]⟩ := by
  unfold demoStore2
  rw [demoStore1_eq]
  norm_num [OperationController.create, DiscussionRepository.findById,
    persistOperation, computeResult, jsAdd, parseFloat, jsTruthy,
    includesOperationType, validOperations, opTypeString, List.find?]
  decide

/-- Evaluated form of `demoStore` (`52 * 2 = 104`). -/
theorem demoStore_eq :
    demoStore = ⟨[⟨"d1", some 42, "u1", 0⟩],
      [⟨"o1", "d1", none, "ADD", some 10, some 52, "u1", 1⟩, demoOp2]⟩ := by
  unfold demoStore demoOp2
  rw [demoStore2_eq]
  norm_num [OperationController.create, DiscussionRepository.findById,
    OperationRepository.findById, persistOperation, computeResult, jsMul,
    parseFloat, jsTruthy, includesOperationType, validOperations,
    opTypeString, List.find?]
  decide

theorem demoStore_reach : ReachC demoStore :=
  ReachC.createOperation demoStore2 "u1" (JsVal.str "d1") (JsVal.str "o1")
    (JsVal.str "MULTIPLY") (JsVal.num 2) "o2" 2
    (ReachC.createOperation demoStore1 "u1" (JsVal.str "d1") JsVal.undef
      (JsVal.str "ADD") (JsVal.num 10) "o1" 1
      (ReachC.createDiscussion emptyStore "u1" (JsVal.num 42) "d1" 0
        ReachC.empty (by decide))
      (by decide))
    (by decide)

/-- Witness for C2: the spec's own scenario (42, ADD 10, MULTIPLY 2). -/
theorem C2_chain_correctness_witness :
    demoOp2 ∈ demoStore.operations ∧
    (∃ c d,
      OperationModel.getOperationChain demoStore demoOp2.id = some c ∧
      demoStore.discussions.find?
        (fun x => x.id = demoOp2.discussionId) = some d ∧
      c ≠ [] ∧ c.getLast? = some demoOp2 ∧ linkedChain c = true ∧
      (∀ h, c.head? = some h → h.parentId = none) ∧
      (∀ x ∈ c, x ∈ demoStore.operations ∧
        x.discussionId = demoOp2.discussionId) ∧
      chainComputesB d.startingNumber c = true) :=
  ⟨by rw [demoStore_eq]; simp,
   C2_chain_correctness demoStore demoStore_reach demoOp2
     (by rw [demoStore_eq]; simp)⟩

/-- The demo store after the author also calls the exposed update endpoint
(`PATCH /api/discussions/:id`) changing `startingNumber` from 42 to 43.
Stored operation results are not recomputed. -/
def updStore : Store :=
  (DiscussionController.update demoStore2 "u1" (JsVal.str "d1")
    (JsVal.num 43)).2

/-- Evaluated form of `updStore`: the root value is now 43 while the
stored operation still has result 52. -/
theorem updStore_eq :
    updStore = ⟨[⟨"d1", some 43, "u1", 0⟩],
      [⟨"o1", "d1", none, "ADD", some 10, some 52, "u1", 1⟩]⟩ := by
  unfold updStore
  rw [demoStore2_eq]
  norm_num [DiscussionController.update, DiscussionRepository.findById,
    DiscussionRepository.update, DiscussionModel.findByStartingNumber,
    jsStrictNeq, parseFloat, jsTruthy, List.find?]
  decide

/-- Counterexample to C2 as stated (over all stores reachable through the
exposed API, which includes `updateDiscussionStartingNumber`): after the
author updates the discussion's `startingNumber` from 42 to 43, the chain
of the stored operation `o1` is resolved as `[o1]`, but replaying the
engine from the discussion's (current) `startingNumber` 43 gives
`43 + 10 = 53`, which does not reproduce the stored result 52. -/
theorem C2_counterexample :
    OperationModel.getOperationChain updStore "o1" =
      some [⟨"o1", "d1", none, "ADD", some 10, some 52, "u1", 1⟩] ∧
    updStore.discussions.find? (fun x => x.id = "d1") =
      some ⟨"d1", some 43, "u1", 0⟩ ∧
    chainComputesB (some 43)
      [⟨"o1", "d1", none, "ADD", some 10, some 52, "u1", 1⟩] = false := by
  rw [updStore_eq]
  refine ⟨by decide, by decide, ?_⟩
  norm_num [chainComputesB, computeResult, jsAdd]

/-- C6 (amended): `getOperationChain` does not fail when the starting
operation id names no stored operation — it returns the empty chain (the
`while` loop body never runs). -/
theorem C6_unknown_id_empty_chain (s : Store) (operationId : String)
    (h : s.operations.find? (fun o => o.id = operationId) = none) :
    OperationModel.getOperationChain s operationId = some [] := by
  unfold OperationModel.getOperationChain
  rw [h, getOperationChainAux]

/-- Witness for C6 at the empty store and id `missing`. -/
theorem C6_unknown_id_empty_chain_witness :
    emptyStore.operations.find? (fun o => o.id = "missing") = none ∧
    OperationModel.getOperationChain emptyStore "missing" = some [] :=
  ⟨rfl, C6_unknown_id_empty_chain emptyStore "missing" rfl⟩

/-- Counterexample to C6 as stated: on an unknown id the resolver does not
fail with `NotFound` (`getOperationChain` has no failure outcome at all);
it returns the empty chain. -/
theorem C6_counterexample :
    OperationModel.getOperationChain emptyStore "missing" = some [] := by
  rw [OperationModel.getOperationChain,
    show emptyStore.operations.find? (fun o => o.id = "missing") = none
      from rfl, getOperationChainAux]

/-- C7: on every store reachable through the exposed creation operations,
the Chain Resolver's parent-following loop terminates within
`s.operations.length` parent lookups (`isSome` means the fuel bound — which
models the number of loop iterations — is never exhausted): parent links
always point to strictly earlier operations, so the loop reaches a
parentless node. -/
theorem C7_resolver_terminates (s : Store) (hs : ReachC s)
    (operationId : String) :
    (OperationModel.getOperationChain s operationId).isSome = true := by
  have hwf := reachC_wf hs
  unfold OperationModel.getOperationChain
  cases hfind : s.operations.find? (fun o => o.id = operationId) with
  | none =>
    rw [getOperationChainAux]
    rfl
  | some o =>
    have ho : o ∈ s.operations := List.mem_of_find?_eq_some hfind
    obtain ⟨⟨i, hi⟩, hget⟩ := List.mem_iff_get.mp ho
    obtain ⟨path, heq, _⟩ :=
      chainAux_spec hwf i hi s.operations.length [] (le_of_lt hi)
    rw [hget] at heq
    rw [heq]
    rfl

/-- Witness for C7 at the demo store. -/
theorem C7_resolver_terminates_witness :
    (OperationModel.getOperationChain demoStore "o2").isSome = true :=
  C7_resolver_terminates demoStore demoStore_reach "o2"

/-! ## Claim C3 -/

/-- C3: `createDiscussion` fails with `Conflict` whenever a discussion with
the requested starting number already exists (I1), returns the existing
discussion's id and `startingNumber` as a hint, and leaves the store
unchanged — no new discussion record is created. -/
theorem C3_create_conflict (s : Store) (userId : String)
    (startingNumber : JsVal) (freshId : String) (now : Nat) (d : Discussion)
    (h1 : startingNumber ≠ JsVal.undef) (h2 : startingNumber ≠ JsVal.null)
    (hex : DiscussionModel.findByStartingNumber s (parseFloat startingNumber)
      = some d) :
    DiscussionController.create s userId startingNumber freshId now =
      (.conflict d.id d.startingNumber, s) := by
  unfold DiscussionController.create
  rw [if_neg (not_or.mpr ⟨h1, h2⟩), hex]

/-- Witness for C3: the spec's §8 scenario — a second discussion with
`startingNumber = 5` conflicts and the existing one is the hint. -/
theorem C3_create_conflict_witness :
    ((JsVal.num 5 ≠ JsVal.undef) ∧ (JsVal.num 5 ≠ JsVal.null) ∧
     DiscussionModel.findByStartingNumber
       ⟨[⟨"d1", some 5, "u1", 0⟩], []⟩ (parseFloat (JsVal.num 5)) =
       some ⟨"d1", some 5, "u1", 0⟩) ∧
    DiscussionController.create ⟨[⟨"d1", some 5, "u1", 0⟩], []⟩ "u2"
      (JsVal.num 5) "d2" 1 =
      (.conflict "d1" (some 5), ⟨[⟨"d1", some 5, "u1", 0⟩], []⟩) :=
  ⟨⟨by decide, by decide, by decide⟩,
   C3_create_conflict ⟨[⟨"d1", some 5, "u1", 0⟩], []⟩ "u2" (JsVal.num 5)
     "d2" 1 ⟨"d1", some 5, "u1", 0⟩ (by decide) (by decide) (by decide)⟩

/-! ## Claim C4 -/

/-- C4: `createOperation` fails with `NotFound` when the named discussion or
the (truthy) named parent does not exist, fails with `InvalidReference`
(never silently succeeding) when the named parent belongs to a different
discussion, and propagates the engine's `InvalidOperation` rejection
(e.g. `DIVIDE` with operand 0) — in every failure case the store comes
back unchanged, so no operation node is persisted. -/
theorem C4_create_operation_errors (s : Store) (userId : String)
    (did pid ty opnd : JsVal) (fid : String) (now : Nat)
    (hdid : jsTruthy did = true) (hty : jsTruthy ty = true)
    (h1 : opnd ≠ JsVal.undef) (h2 : opnd ≠ JsVal.null)
    (hinc : includesOperationType ty = true) :
    (DiscussionRepository.findById s did = none →
      OperationController.create s userId did pid ty opnd fid now =
        (.discussionNotFound, s)) ∧
    (∀ d, DiscussionRepository.findById s did = some d →
      jsTruthy pid = true →
      OperationRepository.findById s pid = none →
      OperationController.create s userId did pid ty opnd fid now =
        (.parentNotFound, s)) ∧
    (∀ d p, DiscussionRepository.findById s did = some d →
      jsTruthy pid = true →
      OperationRepository.findById s pid = some p →
      JsVal.str p.discussionId ≠ did →
      OperationController.create s userId did pid ty opnd fid now =
        (.parentFromOtherDiscussion, s)) ∧
    (∀ d, DiscussionRepository.findById s did = some d →
      jsTruthy pid = false →
      ∀ e, computeResult d.startingNumber (opTypeString ty)
          (parseFloat opnd) = .error e →
      OperationController.create s userId did pid ty opnd fid now =
        (.engineError e, s)) ∧
    (∀ d p, DiscussionRepository.findById s did = some d →
      jsTruthy pid = true →
      OperationRepository.findById s pid = some p →
      JsVal.str p.discussionId = did →
      ∀ e, computeResult p.result (opTypeString ty)
          (parseFloat opnd) = .error e →
      OperationController.create s userId did pid ty opnd fid now =
        (.engineError e, s)) := by
  have hguard :
      ¬ (jsTruthy did = false ∨ jsTruthy ty = false ∨
         opnd = JsVal.undef ∨ opnd = JsVal.null) := by
    simp [hdid, hty, h1, h2]
  have hinc' : ¬ includesOperationType ty = false := by simp [hinc]
  refine ⟨?_, ?_, ?_, ?_, ?_⟩
  · intro hnone
    unfold OperationController.create
    rw [if_neg hguard, if_neg hinc', hnone]
  · intro d hd hp hnone
    unfold OperationController.create
    rw [if_neg hguard, if_neg hinc', hd]
    dsimp only
    rw [if_pos hp, hnone]
  · intro d p hd hp hpar hne
    unfold OperationController.create
    rw [if_neg hguard, if_neg hinc', hd]
    dsimp only
    rw [if_pos hp, hpar]
    dsimp only
    rw [if_pos hne]
  · intro d hd hp e he
    unfold OperationController.create
    rw [if_neg hguard, if_neg hinc', hd]
    dsimp only
    rw [if_neg (by simp [hp])]
    unfold persistOperation
    rw [he]
  · intro d p hd hp hpar heq e he
    unfold OperationController.create
    rw [if_neg hguard, if_neg hinc', hd]
    dsimp only
    rw [if_pos hp, hpar]
    dsimp only
    rw [if_neg (by simp [heq])]
    unfold persistOperation
    rw [he]

/-- A store with two discussions and an operation that belongs to the
second one, to exercise the cross-discussion parent check. -/
def crossStore : Store :=
  ⟨[⟨"d1", some 5, "u1", 0⟩, ⟨"d2", some 6, "u1", 1⟩],
   [⟨"p1", "d2", none, "ADD", some 1, some 7, "u1", 2⟩]⟩

/-- Witness for C4: a missing discussion, a missing parent, a parent from
another discussion, and `DIVIDE` by zero (each against a concrete store,
which is returned unchanged). -/
theorem C4_create_operation_errors_witness :
    OperationController.create emptyStore "u" (JsVal.str "dX") JsVal.undef
      (JsVal.str "ADD") (JsVal.num 1) "f" 9 =
      (.discussionNotFound, emptyStore) ∧
    OperationController.create demoStore1 "u" (JsVal.str "d1")
      (JsVal.str "pX") (JsVal.str "ADD") (JsVal.num 1) "f" 9 =
      (.parentNotFound, demoStore1) ∧
    OperationController.create crossStore "u" (JsVal.str "d1")
      (JsVal.str "p1") (JsVal.str "ADD") (JsVal.num 1) "f" 9 =
      (.parentFromOtherDiscussion, crossStore) ∧
    OperationController.create demoStore1 "u" (JsVal.str "d1") JsVal.undef
      (JsVal.str "DIVIDE") (JsVal.num 0) "f" 9 =
      (.engineError CalcError.divisionByZero, demoStore1) :=
  ⟨(C4_create_operation_errors emptyStore "u" (JsVal.str "dX") JsVal.undef
      (JsVal.str "ADD") (JsVal.num 1) "f" 9 (by decide) (by decide)
      (by decide) (by decide) (by decide)).1 (by decide),
   (C4_create_operation_errors demoStore1 "u" (JsVal.str "d1")
      (JsVal.str "pX") (JsVal.str "ADD") (JsVal.num 1) "f" 9 (by decide)
      (by decide) (by decide) (by decide) (by decide)).2.1
     ⟨"d1", some 42, "u1", 0⟩ (by decide) (by decide) (by decide),
   (C4_create_operation_errors crossStore "u" (JsVal.str "d1")
      (JsVal.str "p1") (JsVal.str "ADD") (JsVal.num 1) "f" 9 (by decide)
      (by decide) (by decide) (by decide) (by decide)).2.2.1
     ⟨"d1", some 5, "u1", 0⟩ ⟨"p1", "d2", none, "ADD", some 1, some 7, "u1", 2⟩
     (by decide) (by decide) (by decide) (by decide),
   (C4_create_operation_errors demoStore1 "u" (JsVal.str "d1") JsVal.undef
      (JsVal.str "DIVIDE") (JsVal.num 0) "f" 9 (by decide) (by decide)
      (by decide) (by decide) (by decide)).2.2.2.1
     ⟨"d1", some 42, "u1", 0⟩ (by decide) (by decide)
     CalcError.divisionByZero (by decide)⟩

/-! ## Claim C5 -/

/-- A proper number that differs from a stored value is `!==` to it. -/
theorem jsStrictNeq_of_ne {q : ℚ} {v : JsNumber} (h : some q ≠ v) :
    jsStrictNeq (some q) v = true := by
  cases v with
  | none => rfl
  | some b =>
    simp only [jsStrictNeq, bne_iff_ne, ne_eq]
    intro hc
    exact h (by rw [hc])

/-- C5: `updateDiscussionStartingNumber` fails with `NotFound` on an
unknown id; otherwise fails with `Forbidden` whenever the requestor is not
the author (the check runs before any value comparison, so it also covers
the no-op case); otherwise fails with `Conflict` when the parsed new value
differs from the current one and already belongs to a(nother) discussion —
the hinted existing discussion is then provably different from the one
being updated; and when the new value equals the current one the
uniqueness lookup is bypassed and the update succeeds, never conflicting
with itself.  Every failure leaves the store unchanged. -/
theorem C5_update_starting_number (s : Store) (requestorId : String)
    (id sn : JsVal) (q : ℚ)
    (hid : jsTruthy id = true)
    (h1 : sn ≠ JsVal.undef) (h2 : sn ≠ JsVal.null) :
    (DiscussionRepository.findById s id = none →
      DiscussionController.update s requestorId id sn = (.notFound, s)) ∧
    (∀ d, DiscussionRepository.findById s id = some d →
      d.authorId ≠ requestorId →
      DiscussionController.update s requestorId id sn = (.forbidden, s)) ∧
    (∀ d ex, DiscussionRepository.findById s id = some d →
      d.authorId = requestorId →
      parseFloat sn = some q →
      some q ≠ d.startingNumber →
      DiscussionModel.findByStartingNumber s (some q) = some ex →
      DiscussionController.update s requestorId id sn =
        (.conflict ex.id ex.startingNumber, s) ∧ ex ≠ d) ∧
    (∀ d, DiscussionRepository.findById s id = some d →
      d.authorId = requestorId →
      parseFloat sn = some q →
      some q = d.startingNumber →
      DiscussionController.update s requestorId id sn =
        (.updated { d with startingNumber := some q },
         DiscussionRepository.update s d.id (some q))) := by
  have hid' : ¬ jsTruthy id = false := by simp [hid]
  have hsn : ¬ (sn = JsVal.undef ∨ sn = JsVal.null) := not_or.mpr ⟨h1, h2⟩
  refine ⟨?_, ?_, ?_, ?_⟩
  · intro hnone
    unfold DiscussionController.update
    rw [if_neg hid', if_neg hsn, hnone]
  · intro d hd hauthor
    unfold DiscussionController.update
    rw [if_neg hid', if_neg hsn, hd]
    dsimp only
    rw [if_pos hauthor]
  · intro d ex hd hauthor hq hne hex
    have hexv := findByStartingNumber_some hex
    refine ⟨?_, ?_⟩
    · unfold DiscussionController.update
      rw [if_neg hid', if_neg hsn, hd]
      dsimp only
      rw [if_neg (by simp [hauthor]), hq, if_pos (jsStrictNeq_of_ne hne),
        hex]
    · intro hc
      subst hc
      exact hne (hexv.2.symm)
  · intro d hd hauthor hq heq
    unfold DiscussionController.update
    rw [if_neg hid', if_neg hsn, hd]
    dsimp only
    rw [if_neg (by simp [hauthor]), hq,
      if_neg (by simp [jsStrictNeq, ← heq])]

/-- A store for the C5 witness: `u1` owns discussion 5; discussion 6 is
owned by `u2`. -/
def twoDiscStore : Store :=
  ⟨[⟨"d1", some 5, "u1", 0⟩, ⟨"d2", some 6, "u2", 1⟩], []⟩

/-- Witness for C5: unknown id → `NotFound`; non-author no-op update (same
value 5) → `Forbidden`; author updating 5 → 6 (taken by `d2`) →
`Conflict` hinting `d2 ≠ d1`; author no-op update 5 → 5 → succeeds. -/
theorem C5_update_starting_number_witness :
    (DiscussionController.update twoDiscStore "u1" (JsVal.str "dX")
      (JsVal.num 7) = (.notFound, twoDiscStore)) ∧
    (DiscussionController.update twoDiscStore "u9" (JsVal.str "d1")
      (JsVal.num 5) = (.forbidden, twoDiscStore)) ∧
    (DiscussionController.update twoDiscStore "u1" (JsVal.str "d1")
      (JsVal.num 6) = (.conflict "d2" (some 6), twoDiscStore) ∧
      (⟨"d2", some 6, "u2", 1⟩ : Discussion) ≠ ⟨"d1", some 5, "u1", 0⟩) ∧
    (DiscussionController.update twoDiscStore "u1" (JsVal.str "d1")
      (JsVal.num 5) =
      (.updated ⟨"d1", some 5, "u1", 0⟩,
       DiscussionRepository.update twoDiscStore "d1" (some 5))) :=
  ⟨(C5_update_starting_number twoDiscStore "u1" (JsVal.str "dX")
      (JsVal.num 7) 7 (by decide) (by decide) (by decide)).1 (by decide),
   (C5_update_starting_number twoDiscStore "u9" (JsVal.str "d1")
      (JsVal.num 5) 5 (by decide) (by decide) (by decide)).2.1
     ⟨"d1", some 5, "u1", 0⟩ (by decide) (by decide),
   (C5_update_starting_number twoDiscStore "u1" (JsVal.str "d1")
      (JsVal.num 6) 6 (by decide) (by decide) (by decide)).2.2.1
     ⟨"d1", some 5, "u1", 0⟩ ⟨"d2", some 6, "u2", 1⟩ (by decide) (by decide)
     (by decide) (by decide) (by decide),
   (C5_update_starting_number twoDiscStore "u1" (JsVal.str "d1")
      (JsVal.num 5) 5 (by decide) (by decide) (by decide)).2.2.2
     ⟨"d1", some 5, "u1", 0⟩ (by decide) (by decide) (by decide) (by decide)⟩

/-! ## Claim C8 -/

/-- Counterexample to C8 as stated: a discussion-creation request whose
`startingNumber` is the non-numeric string `"abc"` is NOT rejected with
`BadRequest`; the guard only checks `undefined`/`null`, `parseFloat`
coerces the string to `NaN`, and a discussion with `startingNumber = NaN`
is created (HTTP 201). -/
theorem C8_counterexample :
    DiscussionController.create emptyStore "u1" (JsVal.str "abc") "d1" 0 =
      (.created ⟨"d1", none, "u1", 0⟩, ⟨[⟨"d1", none, "u1", 0⟩], []⟩) := by
  decide

/-- C8 (amended): the controllers reject with `BadRequest` — leaving the
store unchanged — exactly an absent (`undefined`/`null`) `startingNumber`
on discussion creation/update, an absent `operand`, and an `operationType`
failing the `validOperations.includes` check; values that are present but
non-numeric are coerced with `parseFloat` (to `NaN` when unparseable)
rather than rejected. -/
theorem C8_bad_request_validation (s : Store) (userId requestorId : String)
    (fid : String) (now : Nat) (id : JsVal) :
    (DiscussionController.create s userId JsVal.undef fid now =
       (.missingStartingNumber, s)) ∧
    (DiscussionController.create s userId JsVal.null fid now =
       (.missingStartingNumber, s)) ∧
    (jsTruthy id = true →
      DiscussionController.update s requestorId id JsVal.undef =
        (.missingStartingNumber, s)) ∧
    (jsTruthy id = true →
      DiscussionController.update s requestorId id JsVal.null =
        (.missingStartingNumber, s)) ∧
    (∀ did pid ty, OperationController.create s userId did pid ty
        JsVal.undef fid now = (.missingFields, s)) ∧
    (∀ did pid ty, OperationController.create s userId did pid ty
        JsVal.null fid now = (.missingFields, s)) ∧
    (∀ did pid ty opnd, jsTruthy did = true → jsTruthy ty = true →
      opnd ≠ JsVal.undef → opnd ≠ JsVal.null →
      includesOperationType ty = false →
      OperationController.create s userId did pid ty opnd fid now =
        (.invalidOperationType, s)) := by
  refine ⟨?_, ?_, ?_, ?_, ?_, ?_, ?_⟩
  · unfold DiscussionController.create
    rw [if_pos (Or.inl rfl)]
  · unfold DiscussionController.create
    rw [if_pos (Or.inr rfl)]
  · intro hid
    unfold DiscussionController.update
    rw [if_neg (by simp [hid]), if_pos (Or.inl rfl)]
  · intro hid
    unfold DiscussionController.update
    rw [if_neg (by simp [hid]), if_pos (Or.inr rfl)]
  · intro did pid ty
    unfold OperationController.create
    rw [if_pos (by tauto)]
  · intro did pid ty
    unfold OperationController.create
    rw [if_pos (by tauto)]
  · intro did pid ty opnd hdid hty h1 h2 hinc
    unfold OperationController.create
    rw [if_neg (by simp [hdid, hty, h1, h2]), if_pos hinc]

/-- Witness for C8 (amended) at concrete inputs: a no-op id guard plus the
`BadRequest` branches, against the one-discussion demo store. -/
theorem C8_bad_request_validation_witness :
    (DiscussionController.create demoStore1 "u1" JsVal.undef "dN" 3 =
       (.missingStartingNumber, demoStore1)) ∧
    (DiscussionController.update demoStore1 "u1" (JsVal.str "d1")
       JsVal.null = (.missingStartingNumber, demoStore1)) ∧
    (OperationController.create demoStore1 "u1" (JsVal.str "d1")
       JsVal.undef (JsVal.str "ADD") JsVal.undef "oN" 3 =
       (.missingFields, demoStore1)) ∧
    (OperationController.create demoStore1 "u1" (JsVal.str "d1")
       JsVal.undef (JsVal.str "MODULO") (JsVal.num 3) "oN" 3 =
       (.invalidOperationType, demoStore1)) :=
  ⟨(C8_bad_request_validation demoStore1 "u1" "u1" "dN" 3
      (JsVal.str "d1")).1,
   (C8_bad_request_validation demoStore1 "u1" "u1" "dN" 3
      (JsVal.str "d1")).2.2.2.1 (by decide),
   (C8_bad_request_validation demoStore1 "u1" "u1" "oN" 3
      (JsVal.str "d1")).2.2.2.2.1 (JsVal.str "d1") JsVal.undef
     (JsVal.str "ADD"),
   (C8_bad_request_validation demoStore1 "u1" "u1" "oN" 3
      (JsVal.str "d1")).2.2.2.2.2.2 (JsVal.str "d1") JsVal.undef
     (JsVal.str "MODULO") (JsVal.num 3) (by decide) (by decide) (by decide)
     (by decide) (by decide)⟩

/-! ## Claim C10 -/

/-- C10: a falsy `parentId` (absent/`undefined`, `null`, or the empty
string) makes `createOperation` take the root branch: the call is exactly
the persist step with previous value the discussion's `startingNumber` and
stored parent `null` — so no parent lookup happens and no parent-related
`NotFound`/`InvalidReference` can arise — and on engine success the stored
node has `parentId = none` (the empty string is normalized to `null`, not
stored). -/
theorem C10_falsy_parent_is_root (s : Store) (userId : String)
    (did pid ty opnd : JsVal) (fid : String) (now : Nat) (d : Discussion)
    (hpid : pid = JsVal.undef ∨ pid = JsVal.null ∨ pid = JsVal.str "")
    (hdid : jsTruthy did = true) (hty : jsTruthy ty = true)
    (h1 : opnd ≠ JsVal.undef) (h2 : opnd ≠ JsVal.null)
    (hinc : includesOperationType ty = true)
    (hfound : DiscussionRepository.findById s did = some d) :
    OperationController.create s userId did pid ty opnd fid now =
      persistOperation s userId d none (opTypeString ty) (parseFloat opnd)
        d.startingNumber fid now ∧
    (∀ r, computeResult d.startingNumber (opTypeString ty) (parseFloat opnd)
        = .ok r →
      OperationController.create s userId did pid ty opnd fid now =
        (.created ⟨fid, d.id, none, opTypeString ty, parseFloat opnd, r,
           userId, now⟩,
         { s with operations := s.operations ++
            [⟨fid, d.id, none, opTypeString ty, parseFloat opnd, r,
              userId, now⟩] })) := by
  have hfalsy : ¬ jsTruthy pid = true := by
    rcases hpid with rfl | rfl | rfl <;> decide
  have hmain : OperationController.create s userId did pid ty opnd fid now =
      persistOperation s userId d none (opTypeString ty) (parseFloat opnd)
        d.startingNumber fid now := by
    unfold OperationController.create
    rw [if_neg (by simp [hdid, hty, h1, h2]), if_neg (by simp [hinc]),
      hfound]
    dsimp only
    rw [if_neg hfalsy]
  refine ⟨hmain, ?_⟩
  intro r hr
  rw [hmain]
  unfold persistOperation
  rw [hr]

/-- Witness for C10: an empty-string `parentId` on the demo store creates
the root node `ADD 10` with stored `parentId = null` and result 52. -/
theorem C10_falsy_parent_is_root_witness :
    OperationController.create demoStore1 "u1" (JsVal.str "d1")
      (JsVal.str "") (JsVal.str "ADD") (JsVal.num 10) "oX" 5 =
      (.created ⟨"oX", "d1", none, "ADD", some 10, some 52, "u1", 5⟩,
       { demoStore1 with operations := demoStore1.operations ++
          [⟨"oX", "d1", none, "ADD", some 10, some 52, "u1", 5⟩] }) :=
  (C10_falsy_parent_is_root demoStore1 "u1" (JsVal.str "d1")
    (JsVal.str "") (JsVal.str "ADD") (JsVal.num 10) "oX" 5
    ⟨"d1", some 42, "u1", 0⟩ (by tauto) (by decide) (by decide) (by decide)
    (by decide) (by decide) (by decide)).2 (some 52)
    (by norm_num [computeResult, jsAdd, parseFloat, opTypeString])

/-! ## Claim C9 -/

/-- Sorting by `createdAt` ascending yields a list that is pairwise
nondecreasing in `createdAt`. -/
theorem mergeSort_createdAsc_sorted (l : List Operation) :
    (l.mergeSort createdAsc).Pairwise
      (fun a b => a.createdAt ≤ b.createdAt) := by
  have h := @List.sorted_mergeSort Operation createdAsc
    (fun a b c hab hbc => by
      simp only [createdAsc, decide_eq_true_eq] at hab hbc ⊢
      omega)
    (fun a b => by
      simp only [createdAsc, Bool.or_eq_true, decide_eq_true_eq]
      omega) l
  exact h.imp (fun hab => by simpa [createdAsc] using hab)

/-- Sorting by `createdAt` descending yields a list that is pairwise
nonincreasing in `createdAt`. -/
theorem mergeSort_createdDesc_sorted (l : List Discussion) :
    (l.mergeSort createdDesc).Pairwise
      (fun a b => b.createdAt ≤ a.createdAt) := by
  have h := @List.sorted_mergeSort Discussion createdDesc
    (fun a b c hab hbc => by
      simp only [createdDesc, decide_eq_true_eq] at hab hbc ⊢
      omega)
    (fun a b => by
      simp only [createdDesc, Bool.or_eq_true, decide_eq_true_eq]
      omega) l
  exact h.imp (fun hab => by simpa [createdDesc] using hab)

/-- The discussions of `findAll`, in order. -/
theorem findAll_fst (s : Store) :
    (DiscussionRepository.findAll s).map Prod.fst =
      s.discussions.mergeSort createdDesc := by
  unfold DiscussionRepository.findAll
  rw [List.map_map]
  exact List.map_id _

/-- C9 (amended): every oldest-first listing returns a permutation of
exactly the matching stored records (no duplicates, no omissions relative
to the store's contents), pairwise nondecreasing in creation timestamp;
`listDiscussions` returns all discussions pairwise nonincreasing in
creation timestamp, each paired with its own oldest-first operations
listing.  No identity tiebreaker is applied: records with equal
timestamps keep their stored (insertion) order. -/
theorem C9_listing_order (s : Store) (discussionId operationId : String) :
    List.Perm (OperationRepository.findByDiscussion s discussionId)
      (s.operations.filter (fun o => o.discussionId = discussionId)) ∧
    (OperationRepository.findByDiscussion s discussionId).Pairwise
      (fun a b => a.createdAt ≤ b.createdAt) ∧
    List.Perm (OperationModel.getChildren s operationId)
      (s.operations.filter (fun o => o.parentId = some operationId)) ∧
    (OperationModel.getChildren s operationId).Pairwise
      (fun a b => a.createdAt ≤ b.createdAt) ∧
    List.Perm (OperationModel.getRootOperations s discussionId)
      (s.operations.filter
        (fun o => o.discussionId = discussionId && o.parentId = none)) ∧
    (OperationModel.getRootOperations s discussionId).Pairwise
      (fun a b => a.createdAt ≤ b.createdAt) ∧
    List.Perm ((DiscussionRepository.findAll s).map Prod.fst)
      s.discussions ∧
    ((DiscussionRepository.findAll s).map Prod.fst).Pairwise
      (fun a b => b.createdAt ≤ a.createdAt) ∧
    (∀ p ∈ DiscussionRepository.findAll s,
      p.2 = OperationRepository.findByDiscussion s p.1.id) := by
  refine ⟨List.mergeSort_perm _ _, mergeSort_createdAsc_sorted _,
    List.mergeSort_perm _ _, mergeSort_createdAsc_sorted _,
    List.mergeSort_perm _ _, mergeSort_createdAsc_sorted _, ?_, ?_, ?_⟩
  · rw [findAll_fst]
    exact List.mergeSort_perm _ _
  · rw [findAll_fst]
    exact mergeSort_createdDesc_sorted _
  · intro p hp
    unfold DiscussionRepository.findAll at hp
    obtain ⟨d, _, rfl⟩ := List.mem_map.mp hp
    rfl

/-- Two operations of discussion `d1` with the SAME creation timestamp,
inserted in the order `"b"` then `"a"`. -/
def tieStore : Store :=
  ⟨[], [⟨"b", "d1", none, "ADD", some 1, some 1, "u1", 5⟩,
        ⟨"a", "d1", none, "ADD", some 1, some 1, "u1", 5⟩]⟩

/-- Counterexample to C9 as stated: the listing orders only by
`createdAt` (the query has no identity tiebreaker), so with equal
timestamps the stored insertion order `["b", "a"]` is returned — not the
sequence `["a", "b"]` that "timestamp ascending with ties broken by
identity" demands (the identity `"a"` precedes `"b"` in any order on
identities derived from the strings). -/
theorem C9_counterexample :
    OperationRepository.findByDiscussion tieStore "d1" =
      [⟨"b", "d1", none, "ADD", some 1, some 1, "u1", 5⟩,
       ⟨"a", "d1", none, "ADD", some 1, some 1, "u1", 5⟩] ∧
    OperationRepository.findByDiscussion tieStore "d1" ≠
      [⟨"a", "d1", none, "ADD", some 1, some 1, "u1", 5⟩,
       ⟨"b", "d1", none, "ADD", some 1, some 1, "u1", 5⟩] := by
  have hf : tieStore.operations.filter
      (fun o => o.discussionId = "d1") =
      [⟨"b", "d1", none, "ADD", some 1, some 1, "u1", 5⟩,
       ⟨"a", "d1", none, "ADD", some 1, some 1, "u1", 5⟩] := by decide
  have h : OperationRepository.findByDiscussion tieStore "d1" =
      [⟨"b", "d1", none, "ADD", some 1, some 1, "u1", 5⟩,
       ⟨"a", "d1", none, "ADD", some 1, some 1, "u1", 5⟩] := by
    unfold OperationRepository.findByDiscussion
    rw [hf]
    exact List.mergeSort_of_sorted (by decide)
  refine ⟨h, ?_⟩
  rw [h]
  decide

/-- Witness for C9 (amended) at the concrete `crossStore`. -/
theorem C9_listing_order_witness :
    List.Perm (OperationRepository.findByDiscussion crossStore "d2")
      (crossStore.operations.filter (fun o => o.discussionId = "d2")) ∧
    (OperationRepository.findByDiscussion crossStore "d2").Pairwise
      (fun a b => a.createdAt ≤ b.createdAt) ∧
    List.Perm (OperationModel.getChildren crossStore "p1")
      (crossStore.operations.filter (fun o => o.parentId = some "p1")) ∧
    (OperationModel.getChildren crossStore "p1").Pairwise
      (fun a b => a.createdAt ≤ b.createdAt) ∧
    List.Perm (OperationModel.getRootOperations crossStore "d2")
      (crossStore.operations.filter
        (fun o => o.discussionId = "d2" && o.parentId = none)) ∧
    (OperationModel.getRootOperations crossStore "d2").Pairwise
      (fun a b => a.createdAt ≤ b.createdAt) ∧
    List.Perm ((DiscussionRepository.findAll crossStore).map Prod.fst)
      crossStore.discussions ∧
    ((DiscussionRepository.findAll crossStore).map Prod.fst).Pairwise
      (fun a b => b.createdAt ≤ a.createdAt) ∧
    (∀ p ∈ DiscussionRepository.findAll crossStore,
      p.2 = OperationRepository.findByDiscussion crossStore p.1.id) :=
  C9_listing_order crossStore "d2" "p1"
